import Mathlib

/-!
# Verification of the iris SVM classification notebook

Shallow embedding of the logical core of `iris_classification.ipynb`:
the two-dimensional hyperparameter grid search over (gamma, C), the
best-point selection rule `scores.index(max(scores))`, the retraining
cell `best_all_classifier`, the label-to-name mapping loop, and the
`pd.crosstab` contingency table.  The external collaborators (the SVC
fit/predict/score routines and the shuffling inside scikit-learn's
`train_test_split`) are kept opaque: the classifier is a function
parameter, and the Dataset Partitioner is modelled from the design spec
since the splitting routine's internals are not part of this repository.

The notebook contains two variants of the same pipeline; where they
differ, definitions carry a `V1`/`V2` suffix.
-/

namespace IrisSVM

/-! ## Definitions

### Grid search (notebook cell 4 of each variant)

The notebook runs
```
for g in range(1,3):        # variant 1; range(1,31) in variant 2
    for c in range(1,301):  # variant 1; range(1,31) in variant 2
        c = c / 100.0       # variant 1; c / 10.0 in variant 2
        classes = SVC(kernel='rbf', gamma=g, C=c, random_state=61)
        classes.fit(feat_train_all, class_train_all)
        scores.append(classes.score(feat_valid_all, class_valid_all))
        gees.append(g)
        cees.append(c)
```
The opaque composition `SVC(...).fit(...).score(...)` is a parameter
`score : ℕ → ℚ → ℚ` taking the grid point (g, c) to the accuracy. -/

/-- Variant 1 first grid dimension: `range(1,3)`. -/
def gridDim1V1 : List ℕ := [1, 2]

/-- Variant 1 second grid dimension: `c / 100.0 for c in range(1,301)`. -/
def gridDim2V1 : List ℚ := (List.range 300).map (fun k : ℕ => ((k : ℚ) + 1) / 100)

/-- Variant 2 first grid dimension: `range(1,31)`. -/
def gridDim1V2 : List ℕ := (List.range 30).map (fun k => k + 1)

/-- Variant 2 second grid dimension: `c / 10.0 for c in range(1,31)`. -/
def gridDim2V2 : List ℚ := (List.range 30).map (fun k : ℕ => ((k : ℚ) + 1) / 10)

/-- The nested grid-search loop, appending to the three parallel lists
`scores`, `gees`, `cees` exactly as the notebook cell does. -/
def gridLoop (score : ℕ → ℚ → ℚ) (gs : List ℕ) (cs : List ℚ) :
    List ℚ × List ℕ × List ℚ :=
  gs.foldl
    (fun acc g =>
      cs.foldl
        (fun acc2 c => (acc2.1 ++ [score g c], acc2.2.1 ++ [g], acc2.2.2 ++ [c]))
        acc)
    ([], [], [])

/-- Row-major enumeration of the two-dimensional grid, recording `point g c`
at each grid point (outer loop over `gs`, inner loop over `cs`). -/
def gridMap {α : Type} (point : ℕ → ℚ → α) (gs : List ℕ) (cs : List ℚ) : List α :=
  gs.flatMap (fun g => (cs.map (fun c => point g c)))

/-- The `scores` list built by the grid loop. -/
def scoresOf (score : ℕ → ℚ → ℚ) (gs : List ℕ) (cs : List ℚ) : List ℚ :=
  gridMap score gs cs

/-- The `gees` list built by the grid loop. -/
def geesOf (gs : List ℕ) (cs : List ℚ) : List ℕ :=
  gridMap (fun g _ => g) gs cs

/-- The `cees` list built by the grid loop. -/
def ceesOf (gs : List ℕ) (cs : List ℚ) : List ℚ :=
  gridMap (fun _ c => c) gs cs

/-! ### Best-point selection (notebook cell 5 of each variant):
`scores.index(max(scores))`. -/

/-- Python `max` on a list.  `max([])` raises `ValueError`; the `[]` case
is modelled as 0 and is unreachable in the notebook's uses (the grid
output is never empty). -/
def pyMax : List ℚ → ℚ
  | [] => 0
  | x :: xs => xs.foldl max x

/-- Python `list.index`: position of the first occurrence of `x`.  For a
value not in the list Python raises `ValueError`; the model then returns
the list length (unreachable in the notebook's use, where the argument is
`max(scores)`). -/
def pyIndex : List ℚ → ℚ → ℕ
  | [], _ => 0
  | y :: ys, x => if y = x then 0 else pyIndex ys x + 1

/-- The selection rule `scores.index(max(scores))`. -/
def bestIndex (scores : List ℚ) : ℕ := pyIndex scores (pyMax scores)

/-! ### The retraining cell

Variant 1 (cell 6):
```
best_all_classifier = SVC(kernel='rbf', gamma=gees[117], C=cees[117])
best_all_classifier.fit(feat_train_all, class_train_all)
best_all_predictions = best_all_classifier.predict(feat_test_all)
```
Variant 2 is identical with index 34.  The external `SVC(...).fit` is a
parameter `fit` from training features, training labels and the (gamma, C)
point to a fitted model; a model is its `predict` function. -/

/-- One row of scaled features. -/
abbrev Feat := List ℚ

/-- A fitted classifier, as its `predict` function on a feature matrix. -/
abbrev Model := List Feat → List ℤ

/-- The subsets produced by the two `train_test_split` calls of variant 1. -/
structure SplitData where
  featTrain : List Feat
  featValid : List Feat
  featTest : List Feat
  classTrain : List ℤ
  classValid : List ℤ
  classTest : List ℤ

/-- The subsets produced by the single `train_test_split` call of variant 2. -/
structure SplitDataV2 where
  featTrain : List Feat
  featTest : List Feat
  classTrain : List ℤ
  classTest : List ℤ

/-- Variant 1 `gees` (independent of the score collaborator). -/
def geesV1 : List ℕ := geesOf gridDim1V1 gridDim2V1

/-- Variant 1 `cees`. -/
def ceesV1 : List ℚ := ceesOf gridDim1V1 gridDim2V1

/-- Variant 1 `scores`, for a given score collaborator. -/
def scoresV1 (score : ℕ → ℚ → ℚ) : List ℚ := scoresOf score gridDim1V1 gridDim2V1

/-- Variant 2 `gees`. -/
def geesV2 : List ℕ := geesOf gridDim1V2 gridDim2V2

/-- Variant 2 `cees`. -/
def ceesV2 : List ℚ := ceesOf gridDim1V2 gridDim2V2

/-- Variant 2 `scores`, for a given score collaborator. -/
def scoresV2 (score : ℕ → ℚ → ℚ) : List ℚ := scoresOf score gridDim1V2 gridDim2V2

/-- Variant 1 retraining cell: the hyperparameter point is read from the
hard-coded list position 117, and the model is fitted on the training
subset (`feat_train_all`, `class_train_all`). -/
def bestAllClassifier (fit : List Feat → List ℤ → ℕ → ℚ → Model) (d : SplitData) :
    Model :=
  fit d.featTrain d.classTrain (geesV1.getD 117 0) (ceesV1.getD 117 0)

/-- Variant 1 `best_all_predictions`: the retrained model applied to the
test subset. -/
def bestAllPredictions (fit : List Feat → List ℤ → ℕ → ℚ → Model) (d : SplitData) :
    List ℤ :=
  bestAllClassifier fit d d.featTest

/-- Variant 2 retraining cell: hard-coded list position 34. -/
def bestAllClassifierV2 (fit : List Feat → List ℤ → ℕ → ℚ → Model) (d : SplitDataV2) :
    Model :=
  fit d.featTrain d.classTrain (geesV2.getD 34 0) (ceesV2.getD 34 0)

/-- The retraining step as the spec's control flow describes it, stated for
comparison with the code's `bestAllClassifier`: fit at the selected
best-scoring grid point on the combined training data (training plus
validation subsets). -/
def specCombinedRetrain (fit : List Feat → List ℤ → ℕ → ℚ → Model)
    (score : ℕ → ℚ → ℚ) (d : SplitData) : Model :=
  fit (d.featTrain ++ d.featValid) (d.classTrain ++ d.classValid)
    (geesV1.getD (bestIndex (scoresV1 score)) 0)
    (ceesV1.getD (bestIndex (scoresV1 score)) 0)

/-- Predictions on the test subset of the spec-described retrained model. -/
def specCombinedPredictions (fit : List Feat → List ℤ → ℕ → ℚ → Model)
    (score : ℕ → ℚ → ℚ) (d : SplitData) : List ℤ :=
  specCombinedRetrain fit score d d.featTest

/-- The fit collaborator used in the C1 counterexample: the fitted model
predicts, for every test row, the size of the feature matrix it was
trained on. -/
def cexFit : List Feat → List ℤ → ℕ → ℚ → Model :=
  fun X _ _ _ => fun tests => tests.map (fun _ => (X.length : ℤ))

/-- The split used in the C1 counterexample: one training row, one
validation row, one test row. -/
def cexSplit : SplitData :=
  ⟨[[0]], [[1]], [[2]], [0], [1], [0]⟩

/-! ### Result reporting (variant 1 cell 7; variant 2 cell 7)

```
classifications = np.chararray(class_test_all.shape, ...)
for j in range(len(class_test_all)):
    if class_test_all.iloc[j] == 0:
        classifications[j] = 'setosa'
    elif class_test_all.iloc[j] == 1:
        classifications[j] = 'versicolor'
    elif class_test_all.iloc[j] == 2:
        classifications[j] = 'virginica'
predictactual = pd.DataFrame({'predictions': best_all_predictions,
                              'classifications': classifications})
crosstabtable = pd.crosstab(predictactual['predictions'],
                            predictactual['classifications'])
```
-/

/-- The spec's error taxonomy for the Result Reporter.  The notebook cell
itself raises neither error. -/
inductive ReporterError : Type
  | UnknownLabelError
  | LengthMismatchError
  deriving DecidableEq

/-- The integer-to-class-name mapping embodied in the if/elif chain. -/
def labelMap (t : ℤ) : Option String :=
  if t = 0 then some "setosa"
  else if t = 1 then some "versicolor"
  else if t = 2 then some "virginica"
  else none

/-- One entry of the `classifications` array: the if/elif chain has no
else branch, so a label without a mapping entry leaves the entry at the
array's default empty-string content. -/
def labelName (t : ℤ) : String := (labelMap t).getD ""

/-- The `classifications` array built by the label-to-name loop. -/
def classificationsOf (classTest : List ℤ) : List String := classTest.map labelName

/-- One cell of `pd.crosstab(predictions, classifications)`: the number of
test records predicted `p` whose actual class name is `a`. -/
def cellCount (preds : List ℤ) (acts : List String) (p : ℤ) (a : String) : ℕ :=
  ((preds.zip acts).filter (fun x => decide (x.1 = p ∧ x.2 = a))).length

/-- Row labels of the crosstab: the distinct prediction values. -/
def crosstabRows (preds : List ℤ) (acts : List String) : List ℤ :=
  ((preds.zip acts).map Prod.fst).dedup

/-- Column labels of the crosstab: the distinct actual class names. -/
def crosstabCols (preds : List ℤ) (acts : List String) : List String :=
  ((preds.zip acts).map Prod.snd).dedup

/-- The sum of all cell counts of the crosstab. -/
def crosstabTotal (preds : List ℤ) (acts : List String) : ℕ :=
  ((crosstabRows preds acts).map (fun p =>
    ((crosstabCols preds acts).map (fun a => cellCount preds acts p a)).sum)).sum

/-- The reporting cell end to end: it pairs the predictions with the
derived class names and tabulates them.  Nothing in the cell raises, so
the result is always `ok` (the spec's `ReporterError`s are design
proposals, not code paths). -/
def reporterRun (preds trues : List ℤ) : Except ReporterError (List (ℤ × String)) :=
  Except.ok (preds.zip (classificationsOf trues))

/-- Variant 1 pipeline tail: the retrained model's test predictions are
what the reporting cell receives. -/
def finalReport (fit : List Feat → List ℤ → ℕ → ℚ → Model) (d : SplitData) :
    Except ReporterError (List (ℤ × String)) :=
  reporterRun (bestAllPredictions fit d) d.classTest

/-! ### Dataset Partitioner

Modelled from the spec: the notebook delegates splitting to scikit-learn's
`train_test_split`, so the size computation, the seeded shuffle and the
error behaviour of the Dataset Partitioner (spec §4.1) are not present in
this repository's source; the definitions below follow the spec's words.
The pseudo-random permutation keyed on the seed is modelled as a rotation
(the spec constrains it only to be a deterministic permutation of the
dataset). -/

/-- The spec's error taxonomy for the Partitioner. -/
inductive PartitionError : Type
  | InvalidFractionError
  | EmptyDatasetError
  deriving DecidableEq

/-- The requested split fractions (train, validation, test). -/
structure Fractions where
  train : ℚ
  valid : ℚ
  test : ℚ
  deriving DecidableEq

/-- Modelled from the spec: the "small epsilon" tolerance on the fraction
sum (its value is not fixed by the spec). -/
def fracEps : ℚ := 1 / 100000

/-- Modelled from the spec: fractions are valid when they sum to 1.0
within `fracEps` and each lies in `[0,1]`. -/
def fracsValid (f : Fractions) : Prop :=
  |f.train + f.valid + f.test - 1| ≤ fracEps ∧
    0 ≤ f.train ∧ f.train ≤ 1 ∧ 0 ≤ f.valid ∧ f.valid ≤ 1 ∧ 0 ≤ f.test ∧ f.test ≤ 1

instance (f : Fractions) : Decidable (fracsValid f) := by
  unfold fracsValid
  infer_instance

/-- Modelled from the spec: the subset size `round(N * fraction)` as a
natural number. -/
def roundSize (N : ℕ) (fr : ℚ) : ℕ := (round ((N : ℚ) * fr)).toNat

/-- Modelled from the spec: which subset has the largest fraction
(0 train, 1 valid, 2 test), first on ties. -/
def largestIdx (f : Fractions) : ℕ :=
  if f.valid ≤ f.train ∧ f.test ≤ f.train then 0
  else if f.test ≤ f.valid then 1
  else 2

/-- Modelled from the spec: subset sizes are `round(N * fraction)`, with
the rounding remainder assigned to the largest subset (so the largest
subset receives `N` minus the other two rounded sizes). -/
def splitSizes (N : ℕ) (f : Fractions) : ℕ × ℕ × ℕ :=
  if largestIdx f = 0 then
    (N - roundSize N f.valid - roundSize N f.test, roundSize N f.valid, roundSize N f.test)
  else if largestIdx f = 1 then
    (roundSize N f.train, N - roundSize N f.train - roundSize N f.test, roundSize N f.test)
  else
    (roundSize N f.train, roundSize N f.valid, N - roundSize N f.train - roundSize N f.valid)

/-- Modelled from the spec: the signed rounding remainder
`N - (round(N·train) + round(N·valid) + round(N·test))`. -/
def roundRemainder (N : ℕ) (f : Fractions) : ℤ :=
  (N : ℤ) - (round ((N : ℚ) * f.train) + round ((N : ℚ) * f.valid) + round ((N : ℚ) * f.test))

/-- Modelled from the spec: the pseudo-random shuffle keyed on the seed,
as a deterministic permutation of the dataset. -/
def shuffleBySeed {α : Type} (seed : ℕ) (l : List α) : List α := l.rotate seed

/-- Modelled from the spec: the shuffle key — an explicit `random_state`
seed when given (as in the notebook, `random_state = 62` resp. `21`),
otherwise the ambient random-generator state. -/
def rngKey (ambientRng : ℕ) (seed : Option ℕ) : ℕ := seed.getD ambientRng

/-- Modelled from the spec: one Partitioner invocation.  `ambientRng` is
the ambient random-generator state at call time; it is consulted only
when no seed is passed. -/
def partitionerRun {α : Type} (ambientRng : ℕ) (seed : Option ℕ) (f : Fractions)
    (ds : List α) : Except PartitionError (List α × List α × List α) :=
  if ¬ fracsValid f then Except.error PartitionError.InvalidFractionError
  else if ds.length = 0 then Except.error PartitionError.EmptyDatasetError
  else
    let s := shuffleBySeed (rngKey ambientRng seed) ds
    let sz := splitSizes ds.length f
    Except.ok (s.take sz.1, (s.drop sz.1).take sz.2.1, (s.drop sz.1).drop sz.2.1)

/-! ## Theorems -/

/-! ### Grid enumeration (C3) -/

theorem gridLoop_inner (score : ℕ → ℚ → ℚ) (g : ℕ) (cs : List ℚ)
    (init : List ℚ × List ℕ × List ℚ) :
    cs.foldl
      (fun acc2 c => (acc2.1 ++ [score g c], acc2.2.1 ++ [g], acc2.2.2 ++ [c]))
      init =
      (init.1 ++ cs.map (fun c => score g c),
       init.2.1 ++ cs.map (fun _ => g),
       init.2.2 ++ cs) := by
  induction cs generalizing init with
  | nil => simp
  | cons c cs ih =>
      simp only [List.foldl_cons, ih, List.map_cons]
      simp [List.append_assoc]

theorem gridLoop_eq (score : ℕ → ℚ → ℚ) (gs : List ℕ) (cs : List ℚ) :
    gridLoop score gs cs = (scoresOf score gs cs, geesOf gs cs, ceesOf gs cs) := by
  suffices h : ∀ init : List ℚ × List ℕ × List ℚ,
      gs.foldl
        (fun acc g =>
          cs.foldl
            (fun acc2 c => (acc2.1 ++ [score g c], acc2.2.1 ++ [g], acc2.2.2 ++ [c]))
            acc)
        init =
        (init.1 ++ scoresOf score gs cs, init.2.1 ++ geesOf gs cs,
         init.2.2 ++ ceesOf gs cs) by
    have := h ([], [], [])
    simpa [gridLoop] using this
  induction gs with
  | nil => intro init; simp [scoresOf, geesOf, ceesOf, gridMap]
  | cons g gs ih =>
      intro init
      rw [List.foldl_cons, ih, gridLoop_inner]
      simp [scoresOf, geesOf, ceesOf, gridMap, List.flatMap_cons, List.append_assoc]

theorem gridMap_length {α : Type} (point : ℕ → ℚ → α) (gs : List ℕ) (cs : List ℚ) :
    (gridMap point gs cs).length = gs.length * cs.length := by
  induction gs with
  | nil => simp [gridMap]
  | cons g gs ih =>
      simp only [gridMap, List.flatMap_cons, List.length_append, List.length_map,
        List.length_cons] at ih ⊢
      rw [ih, Nat.succ_mul, Nat.add_comm]

theorem gridMap_getElem {α : Type} (point : ℕ → ℚ → α) (gs : List ℕ) (cs : List ℚ)
    (i j : ℕ) (hi : i < gs.length) (hj : j < cs.length) :
    (gridMap point gs cs)[i * cs.length + j]? = some (point gs[i] cs[j]) := by
  induction gs generalizing i with
  | nil => simp at hi
  | cons g gs ih =>
      cases i with
      | zero =>
          have hj0 : (0 : ℕ) * cs.length + j = j := by omega
          have hjlen : j < (cs.map (fun c => point g c)).length := by simpa using hj
          rw [gridMap, List.flatMap_cons, hj0, List.getElem?_append, if_pos hjlen]
          simp [hj]
      | succ i =>
          have hi' : i < gs.length := Nat.lt_of_succ_lt_succ hi
          have hlen : (cs.map (fun c => point g c)).length ≤ (i + 1) * cs.length + j := by
            rw [List.length_map, Nat.succ_mul]
            omega
          rw [gridMap, List.flatMap_cons, List.getElem?_append, if_neg (by omega)]
          have harith : (i + 1) * cs.length + j - (cs.map (fun c => point g c)).length
              = i * cs.length + j := by
            rw [List.length_map, Nat.succ_mul]
            omega
          rw [harith]
          simpa [gridMap] using ih i hi'

/-- C3: the grid loop produces sequences of length `a * b`, in row-major
order: the observation at position `i * b + j` carries the point
`(grid_dim_1[i], grid_dim_2[j])` and its score. -/
theorem grid_enumeration_order (score : ℕ → ℚ → ℚ) (gs : List ℕ) (cs : List ℚ)
    (i j : ℕ) (hi : i < gs.length) (hj : j < cs.length) :
    (gridLoop score gs cs).1.length = gs.length * cs.length ∧
    (gridLoop score gs cs).2.1.length = gs.length * cs.length ∧
    (gridLoop score gs cs).2.2.length = gs.length * cs.length ∧
    (gridLoop score gs cs).2.1[i * cs.length + j]? = some gs[i] ∧
    (gridLoop score gs cs).2.2[i * cs.length + j]? = some cs[j] ∧
    (gridLoop score gs cs).1[i * cs.length + j]? = some (score gs[i] cs[j]) := by
  rw [gridLoop_eq]
  refine ⟨gridMap_length _ _ _, gridMap_length _ _ _, gridMap_length _ _ _, ?_, ?_, ?_⟩
  · exact gridMap_getElem (fun g _ => g) gs cs i j hi hj
  · exact gridMap_getElem (fun _ c => c) gs cs i j hi hj
  · exact gridMap_getElem score gs cs i j hi hj

/-- Witness for C3 at a concrete grid with a concrete score function, at
position `1 * 3 + 2`. -/
theorem grid_enumeration_order_witness :
    (1 : ℕ) < ([5, 7] : List ℕ).length ∧ (2 : ℕ) < ([1/2, 1/3, 1/4] : List ℚ).length ∧
    (gridLoop (fun g c => (g : ℚ) + c) [5, 7] [1/2, 1/3, 1/4]).1.length = 2 * 3 ∧
    (gridLoop (fun g c => (g : ℚ) + c) [5, 7] [1/2, 1/3, 1/4]).2.1[1 * 3 + 2]? = some 7 ∧
    (gridLoop (fun g c => (g : ℚ) + c) [5, 7] [1/2, 1/3, 1/4]).2.2[1 * 3 + 2]? = some (1/4) := by
  have h1 : (1 : ℕ) < ([5, 7] : List ℕ).length := by decide
  have h2 : (2 : ℕ) < ([1/2, 1/3, 1/4] : List ℚ).length := by
    simp
  have h := grid_enumeration_order (fun g c => (g : ℚ) + c) [5, 7] [1/2, 1/3, 1/4] 1 2 h1 h2
  refine ⟨h1, h2, ?_, ?_, ?_⟩
  · simpa using h.1
  · simpa using h.2.2.2.1
  · simpa using h.2.2.2.2.1

/-! ### Selection rule (C2) -/

theorem le_foldl_max (xs : List ℚ) (a : ℚ) : a ≤ xs.foldl max a := by
  induction xs generalizing a with
  | nil => simp
  | cons x xs ih => exact le_trans (le_max_left a x) (ih (max a x))

theorem mem_le_foldl_max (xs : List ℚ) (a x : ℚ) (hx : x ∈ xs) : x ≤ xs.foldl max a := by
  induction xs generalizing a with
  | nil => simp at hx
  | cons y ys ih =>
      rcases List.mem_cons.1 hx with h | h
      · subst h
        exact le_trans (le_max_right a x) (le_foldl_max ys (max a x))
      · exact ih (max a y) h

theorem foldl_max_mem (xs : List ℚ) (a : ℚ) : xs.foldl max a = a ∨ xs.foldl max a ∈ xs := by
  induction xs generalizing a with
  | nil => left; rfl
  | cons x xs ih =>
      rcases ih (max a x) with h | h
      · rcases max_choice a x with h2 | h2
        · left
          rw [List.foldl_cons, h, h2]
        · right
          rw [List.foldl_cons, h, h2]
          exact List.mem_cons_self x xs
      · right
        exact List.mem_cons_of_mem x h

theorem pyMax_mem (l : List ℚ) (h : l ≠ []) : pyMax l ∈ l := by
  cases l with
  | nil => exact absurd rfl h
  | cons x xs =>
      show xs.foldl max x ∈ x :: xs
      rcases foldl_max_mem xs x with h2 | h2
      · rw [h2]
        exact List.mem_cons_self x xs
      · exact List.mem_cons_of_mem x h2

theorem le_pyMax (l : List ℚ) (x : ℚ) (hx : x ∈ l) : x ≤ pyMax l := by
  cases l with
  | nil => simp at hx
  | cons y ys =>
      show x ≤ ys.foldl max y
      rcases List.mem_cons.1 hx with h | h
      · subst h
        exact le_foldl_max ys x
      · exact mem_le_foldl_max ys y x h

theorem pyIndex_lt_length (l : List ℚ) (x : ℚ) (hx : x ∈ l) : pyIndex l x < l.length := by
  induction l with
  | nil => simp at hx
  | cons y ys ih =>
      by_cases h : y = x
      · simp [pyIndex, h]
      · rcases List.mem_cons.1 hx with h2 | h2
        · exact absurd h2.symm h
        · simpa [pyIndex, h] using Nat.succ_lt_succ (ih h2)

theorem getD_pyIndex (l : List ℚ) (x : ℚ) (d : ℚ) (hx : x ∈ l) :
    l.getD (pyIndex l x) d = x := by
  induction l with
  | nil => simp at hx
  | cons y ys ih =>
      by_cases h : y = x
      · simp [pyIndex, h]
      · rcases List.mem_cons.1 hx with h2 | h2
        · exact absurd h2.symm h
        · simpa [pyIndex, h] using ih h2

theorem pyIndex_le (l : List ℚ) (x : ℚ) (d : ℚ) (p : ℕ) (hp : p < l.length)
    (hx : l.getD p d = x) : pyIndex l x ≤ p := by
  induction l generalizing p with
  | nil => simp at hp
  | cons y ys ih =>
      by_cases h : y = x
      · simp [pyIndex, h]
      · cases p with
        | zero =>
            simp at hx
            exact absurd hx h
        | succ p =>
            have := ih p (by simpa using hp) (by simpa using hx)
            simp only [pyIndex, if_neg h]
            omega

/-- C2: for every observation sequence produced by the grid search, the
selection rule `scores.index(max(scores))` returns a valid position whose
score is the maximum, and every position carrying the maximum score is at
or after it — so with a tie at `p1 < p2` it picks `p1`, the first in
iteration order. -/
theorem selection_first_max (score : ℕ → ℚ → ℚ) (gs : List ℕ) (cs : List ℚ)
    (hgs : gs ≠ []) (hcs : cs ≠ []) :
    bestIndex (gridLoop score gs cs).1 < (gridLoop score gs cs).1.length ∧
    (gridLoop score gs cs).1.getD (bestIndex (gridLoop score gs cs).1) 0
      = pyMax (gridLoop score gs cs).1 ∧
    ∀ p, p < (gridLoop score gs cs).1.length →
      (gridLoop score gs cs).1.getD p 0 = pyMax (gridLoop score gs cs).1 →
      bestIndex (gridLoop score gs cs).1 ≤ p := by
  have hne : (gridLoop score gs cs).1 ≠ [] := by
    rw [gridLoop_eq]
    have hlen : (scoresOf score gs cs).length = gs.length * cs.length :=
      gridMap_length score gs cs
    have hpos : 0 < (scoresOf score gs cs).length := by
      rw [hlen]
      exact Nat.mul_pos (List.length_pos.mpr hgs) (List.length_pos.mpr hcs)
    exact List.length_pos.mp hpos
  have hmem := pyMax_mem (gridLoop score gs cs).1 hne
  exact ⟨pyIndex_lt_length _ _ hmem, getD_pyIndex _ _ 0 hmem,
    fun p hp hx => pyIndex_le _ _ 0 p hp hx⟩

/-- Witness for C2: the grid over `[1,2] × [10]` with a constant score has
a tie at positions `0 < 1`; the rule picks position 0. -/
theorem selection_first_max_witness :
    ([1, 2] : List ℕ) ≠ [] ∧ ([(10 : ℚ)] : List ℚ) ≠ [] ∧
    bestIndex (gridLoop (fun _ _ => (1 : ℚ)) [1, 2] [10]).1 = 0 ∧
    (gridLoop (fun _ _ => (1 : ℚ)) [1, 2] [10]).1.getD 1 0
      = pyMax (gridLoop (fun _ _ => (1 : ℚ)) [1, 2] [10]).1 ∧
    bestIndex (gridLoop (fun _ _ => (1 : ℚ)) [1, 2] [10]).1 ≤ 1 := by
  have h := selection_first_max (fun _ _ => (1 : ℚ)) [1, 2] [10] (by decide) (by decide)
  exact ⟨by decide, by decide, by decide, by decide, h.2.2 1 (by decide) (by decide)⟩

/-! ### The hard-coded retraining point (C9, C1) -/

theorem gridMap_getD {α : Type} (point : ℕ → ℚ → α) (gs : List ℕ) (cs : List ℚ)
    (d1 : ℕ) (d2 : ℚ) (dflt : α) (b : ℕ) (hb : b < gs.length * cs.length) :
    (gridMap point gs cs).getD b dflt
      = point (gs.getD (b / cs.length) d1) (cs.getD (b % cs.length) d2) := by
  have hcs : 0 < cs.length := by
    rcases Nat.eq_zero_or_pos cs.length with h | h
    · rw [h, Nat.mul_zero] at hb
      omega
    · exact h
  have hi : b / cs.length < gs.length := (Nat.div_lt_iff_lt_mul hcs).mpr hb
  have hj : b % cs.length < cs.length := Nat.mod_lt _ hcs
  have h := gridMap_getElem point gs cs (b / cs.length) (b % cs.length) hi hj
  have hdecomp : b / cs.length * cs.length + b % cs.length = b := by
    rw [Nat.mul_comm]
    exact Nat.div_add_mod b cs.length
  rw [hdecomp] at h
  rw [List.getD_eq_getElem?_getD, h, Option.getD_some,
    List.getD_eq_getElem gs d1 hi, List.getD_eq_getElem cs d2 hj]

theorem gridDim2V1_length : gridDim2V1.length = 300 := by
  rw [gridDim2V1, List.length_map, List.length_range]

theorem gridDim1V2_length : gridDim1V2.length = 30 := by
  rw [gridDim1V2, List.length_map, List.length_range]

theorem gridDim2V2_length : gridDim2V2.length = 30 := by
  rw [gridDim2V2, List.length_map, List.length_range]

theorem gridDim2V1_getD (j : ℕ) (hj : j < 300) :
    gridDim2V1.getD j 0 = ((j : ℚ) + 1) / 100 := by
  have hj' : j < gridDim2V1.length := by rw [gridDim2V1_length]; exact hj
  rw [List.getD_eq_getElem _ _ hj']
  simp only [gridDim2V1, List.getElem_map, List.getElem_range]

theorem gridDim1V2_getD (i : ℕ) (hi : i < 30) :
    gridDim1V2.getD i 0 = i + 1 := by
  have hi' : i < gridDim1V2.length := by rw [gridDim1V2_length]; exact hi
  rw [List.getD_eq_getElem _ _ hi']
  simp only [gridDim1V2, List.getElem_map, List.getElem_range]

theorem gridDim2V2_getD (j : ℕ) (hj : j < 30) :
    gridDim2V2.getD j 0 = ((j : ℚ) + 1) / 10 := by
  have hj' : j < gridDim2V2.length := by rw [gridDim2V2_length]; exact hj
  rw [List.getD_eq_getElem _ _ hj']
  simp only [gridDim2V2, List.getElem_map, List.getElem_range]

theorem geesV1_getD (b : ℕ) (hb : b < 600) :
    geesV1.getD b 0 = if b < 300 then 1 else 2 := by
  have hlen : gridDim1V1.length * gridDim2V1.length = 600 := by
    rw [gridDim2V1_length]
    rfl
  rw [geesV1, geesOf, gridMap_getD (fun g _ => g) gridDim1V1 gridDim2V1 0 0 0 b (by omega)]
  have h2 : gridDim2V1.length = 300 := gridDim2V1_length
  rw [h2]
  by_cases hlt : b < 300
  · have hdiv : b / 300 = 0 := Nat.div_eq_of_lt hlt
    simp [hdiv, hlt, gridDim1V1]
  · have hdiv : b / 300 = 1 := by omega
    simp [hdiv, hlt, gridDim1V1]

theorem ceesV1_getD (b : ℕ) (hb : b < 600) :
    ceesV1.getD b 0 = (((b % 300 : ℕ) : ℚ) + 1) / 100 := by
  have hlen : gridDim1V1.length * gridDim2V1.length = 600 := by
    rw [gridDim2V1_length]
    rfl
  rw [ceesV1, ceesOf, gridMap_getD (fun _ c => c) gridDim1V1 gridDim2V1 0 0 0 b (by omega)]
  have h2 : gridDim2V1.length = 300 := gridDim2V1_length
  rw [h2]
  exact gridDim2V1_getD (b % 300) (Nat.mod_lt _ (by omega))

theorem geesV2_getD (b : ℕ) (hb : b < 900) :
    geesV2.getD b 0 = b / 30 + 1 := by
  have hlen : gridDim1V2.length * gridDim2V2.length = 900 := by
    rw [gridDim1V2_length, gridDim2V2_length]
  rw [geesV2, geesOf, gridMap_getD (fun g _ => g) gridDim1V2 gridDim2V2 0 0 0 b (by omega)]
  have h2 : gridDim2V2.length = 30 := gridDim2V2_length
  rw [h2]
  exact gridDim1V2_getD (b / 30) (by omega)

theorem ceesV2_getD (b : ℕ) (hb : b < 900) :
    ceesV2.getD b 0 = (((b % 30 : ℕ) : ℚ) + 1) / 10 := by
  have hlen : gridDim1V2.length * gridDim2V2.length = 900 := by
    rw [gridDim1V2_length, gridDim2V2_length]
  rw [ceesV2, ceesOf, gridMap_getD (fun _ c => c) gridDim1V2 gridDim2V2 0 0 0 b (by omega)]
  have h2 : gridDim2V2.length = 30 := gridDim2V2_length
  rw [h2]
  exact gridDim2V2_getD (b % 30) (Nat.mod_lt _ (by omega))

theorem scoresV1_length (score : ℕ → ℚ → ℚ) : (scoresV1 score).length = 600 := by
  rw [scoresV1, scoresOf, gridMap_length, gridDim2V1_length]
  rfl

theorem scoresV2_length (score : ℕ → ℚ → ℚ) : (scoresV2 score).length = 900 := by
  rw [scoresV2, scoresOf, gridMap_length, gridDim1V2_length, gridDim2V2_length]

theorem bestIndex_scoresV1_lt (score : ℕ → ℚ → ℚ) : bestIndex (scoresV1 score) < 600 := by
  have hne : scoresV1 score ≠ [] := by
    have := scoresV1_length score
    intro h
    rw [h] at this
    simp at this
  have := pyIndex_lt_length (scoresV1 score) (pyMax (scoresV1 score)) (pyMax_mem _ hne)
  rw [scoresV1_length] at this
  exact this

theorem bestIndex_scoresV2_lt (score : ℕ → ℚ → ℚ) : bestIndex (scoresV2 score) < 900 := by
  have hne : scoresV2 score ≠ [] := by
    have := scoresV2_length score
    intro h
    rw [h] at this
    simp at this
  have := pyIndex_lt_length (scoresV2 score) (pyMax (scoresV2 score)) (pyMax_mem _ hne)
  rw [scoresV2_length] at this
  exact this

theorem geesV1_getD_117 : geesV1.getD 117 0 = 1 := by
  rw [geesV1_getD 117 (by omega)]
  norm_num

theorem ceesV1_getD_117 : ceesV1.getD 117 0 = 59 / 50 := by
  rw [ceesV1_getD 117 (by omega)]
  norm_num

theorem geesV2_getD_34 : geesV2.getD 34 0 = 2 := by
  rw [geesV2_getD 34 (by omega)]

theorem ceesV2_getD_34 : ceesV2.getD 34 0 = 1 / 2 := by
  rw [ceesV2_getD 34 (by omega)]
  norm_num

theorem bestAllClassifier_eq_point (fit : List Feat → List ℤ → ℕ → ℚ → Model)
    (d : SplitData) :
    bestAllClassifier fit d = fit d.featTrain d.classTrain 1 (59 / 50) := by
  rw [bestAllClassifier, geesV1_getD_117, ceesV1_getD_117]

theorem bestAllClassifierV2_eq_point (fit : List Feat → List ℤ → ℕ → ℚ → Model)
    (d2 : SplitDataV2) :
    bestAllClassifierV2 fit d2 = fit d2.featTrain d2.classTrain 2 (1 / 2) := by
  rw [bestAllClassifierV2, geesV2_getD_34, ceesV2_getD_34]

/-- C9: in both notebook variants the retrained hyperparameter point is
read from a hard-coded list position (117, resp. 34), so regardless of the
scores content it equals `(gees[117], cees[117]) = (1, 1.18)` (resp.
`(gees[34], cees[34]) = (2, 0.5)`); it coincides with the point at the
selected (first-maximum) position exactly when that position is 117
(resp. 34). -/
theorem hardcoded_retrain_point (fit fit2 : List Feat → List ℤ → ℕ → ℚ → Model)
    (score score2 : ℕ → ℚ → ℚ) (d : SplitData) (d2 : SplitDataV2) :
    bestAllClassifier fit d = fit d.featTrain d.classTrain 1 (59 / 50) ∧
    bestAllClassifierV2 fit2 d2 = fit2 d2.featTrain d2.classTrain 2 (1 / 2) ∧
    ((geesV1.getD (bestIndex (scoresV1 score)) 0 = 1 ∧
      ceesV1.getD (bestIndex (scoresV1 score)) 0 = 59 / 50)
        ↔ bestIndex (scoresV1 score) = 117) ∧
    ((geesV2.getD (bestIndex (scoresV2 score2)) 0 = 2 ∧
      ceesV2.getD (bestIndex (scoresV2 score2)) 0 = 1 / 2)
        ↔ bestIndex (scoresV2 score2) = 34) := by
  refine ⟨bestAllClassifier_eq_point fit d, bestAllClassifierV2_eq_point fit2 d2, ?_, ?_⟩
  · have hb := bestIndex_scoresV1_lt score
    constructor
    · rintro ⟨hg, hc⟩
      rw [geesV1_getD _ hb] at hg
      rw [ceesV1_getD _ hb] at hc
      by_cases hlt : bestIndex (scoresV1 score) < 300
      · have hmod : bestIndex (scoresV1 score) % 300 = bestIndex (scoresV1 score) :=
          Nat.mod_eq_of_lt hlt
        rw [hmod] at hc
        have hcast : ((bestIndex (scoresV1 score) : ℚ)) = 117 := by
          field_simp at hc
          linarith
        exact_mod_cast hcast
      · rw [if_neg hlt] at hg
        omega
    · intro h
      rw [h]
      exact ⟨geesV1_getD_117, ceesV1_getD_117⟩
  · have hb := bestIndex_scoresV2_lt score2
    constructor
    · rintro ⟨hg, hc⟩
      rw [geesV2_getD _ hb] at hg
      rw [ceesV2_getD _ hb] at hc
      have hdiv : bestIndex (scoresV2 score2) / 30 = 1 := by omega
      have hcast : ((bestIndex (scoresV2 score2) % 30 : ℕ) : ℚ) = 4 := by
        field_simp at hc
        linarith
      have hmod : bestIndex (scoresV2 score2) % 30 = 4 := by exact_mod_cast hcast
      omega
    · intro h
      rw [h]
      exact ⟨geesV2_getD_34, ceesV2_getD_34⟩

/-- C1 counterexample: with a fit collaborator whose model reports its
training-set size and a non-empty validation subset, the notebook's
retrained predictions (fitted on the training subset only, at the
hard-coded point) differ from what the spec's control flow describes
(fitted on the combined training-plus-validation data at the selected
best point). -/
theorem retrain_not_combined_cex :
    bestAllPredictions cexFit cexSplit = [1] ∧
    specCombinedPredictions cexFit (fun _ _ => 0) cexSplit = [2] ∧
    bestAllPredictions cexFit cexSplit
      ≠ specCombinedPredictions cexFit (fun _ _ => 0) cexSplit := by
  have h1 : bestAllPredictions cexFit cexSplit = [1] := rfl
  have h2 : specCombinedPredictions cexFit (fun _ _ => 0) cexSplit = [2] := rfl
  refine ⟨h1, h2, ?_⟩
  rw [h1, h2]
  decide

/-- C1 (amended): after the grid search, the classifier is retrained on
the training subset only (not the combined training-plus-validation data)
at the hyperparameter point stored at hard-coded position 117 — the point
`(gamma, C) = (1, 1.18)`, which in the recorded run is the best-scoring
point — and its predictions on the test subset are what the Result
Reporter receives. -/
theorem retrain_train_only_hardcoded (fit : List Feat → List ℤ → ℕ → ℚ → Model)
    (d : SplitData) :
    bestAllPredictions fit d = fit d.featTrain d.classTrain 1 (59 / 50) d.featTest ∧
    finalReport fit d
      = reporterRun (fit d.featTrain d.classTrain 1 (59 / 50) d.featTest) d.classTest := by
  have h : bestAllClassifier fit d = fit d.featTrain d.classTrain 1 (59 / 50) :=
    bestAllClassifier_eq_point fit d
  constructor
  · rw [bestAllPredictions, h]
  · rw [finalReport, bestAllPredictions, h]

/-! ### Result Reporter (C5, C6, C10) -/

theorem sum_map_add {κ : Type} (ks : List κ) (A B : κ → ℕ) :
    (ks.map (fun k => A k + B k)).sum = (ks.map A).sum + (ks.map B).sum := by
  induction ks with
  | nil => rfl
  | cons k ks ih =>
      simp only [List.map_cons, List.sum_cons, ih]
      omega

theorem sum_indicator_not_mem {κ : Type} [DecidableEq κ] (ks : List κ) (k0 : κ)
    (h : k0 ∉ ks) : (ks.map (fun k => if k0 = k then 1 else 0)).sum = 0 := by
  induction ks with
  | nil => rfl
  | cons k ks ih =>
      have hne : k0 ≠ k := by
        intro he
        exact h (he ▸ List.mem_cons_self k ks)
      have hnm : k0 ∉ ks := fun hm => h (List.mem_cons_of_mem k hm)
      simp [hne, ih hnm]

theorem sum_indicator_nodup {κ : Type} [DecidableEq κ] (ks : List κ) (k0 : κ)
    (hnd : ks.Nodup) (hmem : k0 ∈ ks) :
    (ks.map (fun k => if k0 = k then 1 else 0)).sum = 1 := by
  induction ks with
  | nil => simp at hmem
  | cons k ks ih =>
      rcases List.nodup_cons.1 hnd with ⟨hk, hnd'⟩
      rcases List.mem_cons.1 hmem with h | h
      · subst h
        simp [sum_indicator_not_mem ks k0 hk]
      · have hne : k0 ≠ k := by
          rintro rfl
          exact hk h
        simp only [List.map_cons, List.sum_cons, if_neg hne, ih hnd' h]

theorem filter_key_cons_length {β κ : Type} [DecidableEq κ] (fkey : β → κ) (x : β)
    (l : List β) (k : κ) :
    ((x :: l).filter (fun y => decide (fkey y = k))).length
      = (if fkey x = k then 1 else 0) + (l.filter (fun y => decide (fkey y = k))).length := by
  by_cases h : fkey x = k
  · simp [List.filter_cons, h]
    omega
  · simp [List.filter_cons, h]

theorem sum_filter_key_length {β κ : Type} [DecidableEq κ] (fkey : β → κ) (l : List β)
    (ks : List κ) (hnd : ks.Nodup) (hcov : ∀ x ∈ l, fkey x ∈ ks) :
    (ks.map (fun k => (l.filter (fun x => decide (fkey x = k))).length)).sum = l.length := by
  induction l with
  | nil => simp
  | cons x l ih =>
      have hx : fkey x ∈ ks := hcov x (List.mem_cons_self x l)
      have hcov' : ∀ y ∈ l, fkey y ∈ ks := fun y hy => hcov y (List.mem_cons_of_mem x hy)
      simp only [filter_key_cons_length]
      rw [sum_map_add, sum_indicator_nodup ks (fkey x) hnd hx, ih hcov', List.length_cons]
      omega

theorem cellCount_eq_filter_filter (preds : List ℤ) (acts : List String) (p : ℤ)
    (a : String) :
    cellCount preds acts p a
      = (((preds.zip acts).filter (fun x => decide (x.1 = p))).filter
          (fun x => decide (x.2 = a))).length := by
  rw [cellCount, List.filter_filter]
  refine congrArg List.length (List.filter_congr ?_)
  intro x _
  by_cases h1 : x.1 = p <;> by_cases h2 : x.2 = a <;> simp [h1, h2]

theorem crosstabTotal_eq_length (preds : List ℤ) (acts : List String)
    (h : preds.length = acts.length) :
    crosstabTotal preds acts = preds.length := by
  have hflen : (preds.zip acts).length = preds.length := by
    rw [List.length_zip, h, Nat.min_self]
  have hinner : ∀ p : ℤ,
      ((crosstabCols preds acts).map (fun a => cellCount preds acts p a)).sum
        = ((preds.zip acts).filter (fun x => decide (x.1 = p))).length := by
    intro p
    have hnd : (crosstabCols preds acts).Nodup := List.nodup_dedup _
    have hcov : ∀ x ∈ (preds.zip acts).filter (fun x => decide (x.1 = p)),
        x.2 ∈ crosstabCols preds acts := by
      intro x hx
      have hxf : x ∈ preds.zip acts := List.mem_of_mem_filter hx
      exact List.mem_dedup.mpr (List.mem_map_of_mem Prod.snd hxf)
    have hsum := sum_filter_key_length Prod.snd
      ((preds.zip acts).filter (fun x => decide (x.1 = p)))
      (crosstabCols preds acts) hnd hcov
    calc ((crosstabCols preds acts).map (fun a => cellCount preds acts p a)).sum
        = ((crosstabCols preds acts).map (fun a =>
            (((preds.zip acts).filter (fun x => decide (x.1 = p))).filter
              (fun x => decide (x.2 = a))).length)).sum := by
          simp only [cellCount_eq_filter_filter]
      _ = ((preds.zip acts).filter (fun x => decide (x.1 = p))).length := hsum
  have hout := sum_filter_key_length Prod.fst (preds.zip acts) (crosstabRows preds acts)
    (List.nodup_dedup _)
    (fun x hx => List.mem_dedup.mpr (List.mem_map_of_mem Prod.fst hx))
  calc crosstabTotal preds acts
      = ((crosstabRows preds acts).map (fun p =>
          ((preds.zip acts).filter (fun x => decide (x.1 = p))).length)).sum := by
        rw [crosstabTotal]
        simp only [hinner]
    _ = (preds.zip acts).length := hout
    _ = preds.length := hflen

/-- C5: for predicted and true label sequences of equal length M handed to
the reporting cell, the sum of all crosstab cell counts is M — each test
record contributes exactly one count. -/
theorem confusion_table_conservation (preds trues : List ℤ)
    (h : preds.length = trues.length) :
    crosstabTotal preds (classificationsOf trues) = preds.length := by
  have hlen : preds.length = (classificationsOf trues).length := by
    rw [classificationsOf, List.length_map]
    exact h
  exact crosstabTotal_eq_length preds _ hlen

/-- Witness for C5 at the spec's round-trip example: true labels
`[0,0,1,1,2]`, predicted labels `[0,0,1,2,2]`, total count 5. -/
theorem confusion_table_conservation_witness :
    ([0, 0, 1, 2, 2] : List ℤ).length = ([0, 0, 1, 1, 2] : List ℤ).length ∧
    crosstabTotal [0, 0, 1, 2, 2] (classificationsOf [0, 0, 1, 1, 2]) = 5 := by
  have h : ([0, 0, 1, 2, 2] : List ℤ).length = ([0, 0, 1, 1, 2] : List ℤ).length := rfl
  exact ⟨h, (confusion_table_conservation [0, 0, 1, 2, 2] [0, 0, 1, 1, 2] h).trans rfl⟩

/-- C10: a true label with no entry in the mapping leaves its
`classifications` entry at the default empty string (the if/elif chain has
no else branch), the record is tabulated under the empty-string actual
column, and the reporting cell still succeeds. -/
theorem unknown_label_silent_default (preds trues : List ℤ) (j : ℕ)
    (hlen : preds.length = trues.length) (hj : j < trues.length)
    (ht : labelMap (trues.getD j 0) = none) :
    (classificationsOf trues).getD j "x" = "" ∧
    1 ≤ cellCount preds (classificationsOf trues) (preds.getD j 0) "" ∧
    reporterRun preds trues = Except.ok (preds.zip (classificationsOf trues)) := by
  have hjc : j < (classificationsOf trues).length := by
    rw [classificationsOf, List.length_map]
    exact hj
  have hjp : j < preds.length := by omega
  have hclass : (classificationsOf trues).getD j "x" = "" := by
    rw [List.getD_eq_getElem _ _ hjc]
    simp only [classificationsOf, List.getElem_map, labelName]
    rw [List.getD_eq_getElem trues 0 hj] at ht
    rw [ht]
    rfl
  refine ⟨hclass, ?_, rfl⟩
  have hjz : j < (preds.zip (classificationsOf trues)).length := by
    rw [List.length_zip]
    omega
  have helem : (preds.zip (classificationsOf trues))[j] = (preds[j], "") := by
    rw [List.getElem_zip]
    rw [← List.getD_eq_getElem (classificationsOf trues) "x" hjc, hclass]
  have hmemf : (preds.zip (classificationsOf trues))[j]
      ∈ (preds.zip (classificationsOf trues)).filter
        (fun x => decide (x.1 = preds.getD j 0 ∧ x.2 = "")) := by
    refine List.mem_filter.mpr ⟨List.getElem_mem hjz, ?_⟩
    rw [helem, List.getD_eq_getElem preds 0 hjp]
    simp
  rw [cellCount]
  exact List.length_pos.mpr (List.ne_nil_of_mem hmemf)

/-- Witness for C10: prediction 0 against the unmapped true label 5. -/
theorem unknown_label_silent_default_witness :
    ([0] : List ℤ).length = ([5] : List ℤ).length ∧ 0 < ([5] : List ℤ).length ∧
    labelMap (([5] : List ℤ).getD 0 0) = none ∧
    (classificationsOf [5]).getD 0 "x" = "" ∧
    1 ≤ cellCount [0] (classificationsOf [5]) (([0] : List ℤ).getD 0 0) "" := by
  have h := unknown_label_silent_default [0] [5] 0 rfl (by decide) (by decide)
  exact ⟨rfl, by decide, by decide, h.1, h.2.1⟩

/-- C6 counterexample: the input `[0, 3]` contains the label 3, which has
no entry in the mapping, yet the reporting cell does not fail with
`UnknownLabelError` (it raises nothing at all). -/
theorem reporter_unknown_label_cex :
    labelMap 3 = none ∧
    reporterRun [0, 0] [0, 3] ≠ Except.error ReporterError.UnknownLabelError := by
  constructor
  · decide
  · intro h
    simp [reporterRun] at h

/-- C6 (amended): the Result Reporter never fails: the label-to-name
chain has no else branch and raises nothing, so a label integer with no
entry in the mapping yields the default empty-string class name instead of
an `UnknownLabelError`. -/
theorem reporter_no_failure (preds trues : List ℤ) :
    (∀ e : ReporterError, reporterRun preds trues ≠ Except.error e) ∧
    (∀ t : ℤ, labelMap t = none → labelName t = "") := by
  constructor
  · intro e h
    simp [reporterRun] at h
  · intro t ht
    rw [labelName, ht]
    rfl

/-- Witness for the amended C6 at label 7. -/
theorem reporter_no_failure_witness :
    reporterRun [0] [7] ≠ Except.error ReporterError.UnknownLabelError ∧
    labelMap 7 = none ∧ labelName 7 = "" := by
  have h := reporter_no_failure [0] [7]
  exact ⟨h.1 ReporterError.UnknownLabelError, by decide, h.2 7 (by decide)⟩

/-! ### Dataset Partitioner (C4, C7, C8) -/

theorem round_mul_nonneg (N : ℕ) (fr : ℚ) (h : 0 ≤ fr) :
    0 ≤ round ((N : ℚ) * fr) := by
  have h0 : (0 : ℚ) ≤ (N : ℚ) * fr := mul_nonneg (by positivity) h
  have habs := abs_le.mp (abs_sub_round ((N : ℚ) * fr))
  have hgt : ((round ((N : ℚ) * fr) : ℤ) : ℚ) > -1 := by linarith [habs.2]
  have : (round ((N : ℚ) * fr) : ℤ) > -1 := by exact_mod_cast hgt
  omega

theorem roundSize_cast (N : ℕ) (fr : ℚ) (h : 0 ≤ fr) :
    (roundSize N fr : ℤ) = round ((N : ℚ) * fr) := by
  rw [roundSize]
  exact Int.toNat_of_nonneg (round_mul_nonneg N fr h)

theorem round_mul_le (N : ℕ) (fr : ℚ) :
    ((round ((N : ℚ) * fr) : ℤ) : ℚ) ≤ (N : ℚ) * fr + 1 / 2 := by
  have habs := abs_le.mp (abs_sub_round ((N : ℚ) * fr))
  linarith [habs.1]

theorem roundSize_pair_le (N : ℕ) (hN : 0 < N) (x y m : ℚ)
    (hx : 0 ≤ x) (hy : 0 ≤ y) (hxm : x ≤ m) (hym : y ≤ m)
    (hsum : x + y + m ≤ 1 + fracEps) :
    roundSize N x + roundSize N y ≤ N := by
  have hxy : x + y ≤ 2 / 3 * (1 + fracEps) := by linarith
  have hNpos : (0 : ℚ) < (N : ℚ) := by exact_mod_cast hN
  have hRx := round_mul_le N x
  have hRy := round_mul_le N y
  have hmul : (N : ℚ) * x + (N : ℚ) * y ≤ (N : ℚ) * (2 / 3 * (1 + fracEps)) := by
    rw [← mul_add]
    exact mul_le_mul_of_nonneg_left hxy (le_of_lt hNpos)
  have hc : (N : ℚ) * (2 / 3 * (1 + fracEps)) < (N : ℚ) := by
    have h1 : (2 / 3 : ℚ) * (1 + fracEps) < 1 := by norm_num [fracEps]
    nlinarith
  have hlt : ((round ((N : ℚ) * x) + round ((N : ℚ) * y) : ℤ) : ℚ) < (N : ℚ) + 1 := by
    push_cast
    linarith
  have hZ : round ((N : ℚ) * x) + round ((N : ℚ) * y) < (N : ℤ) + 1 := by
    exact_mod_cast hlt
  have hZx := roundSize_cast N x hx
  have hZy := roundSize_cast N y hy
  omega

theorem largestIdx_cases (f : Fractions) :
    largestIdx f = 0 ∨ largestIdx f = 1 ∨ largestIdx f = 2 := by
  rw [largestIdx]
  split_ifs <;> simp

theorem largestIdx_zero (f : Fractions) (h : largestIdx f = 0) :
    f.valid ≤ f.train ∧ f.test ≤ f.train := by
  rw [largestIdx] at h
  split_ifs at h with h1 h2
  exact h1

theorem largestIdx_one (f : Fractions) (h : largestIdx f = 1) :
    f.train ≤ f.valid ∧ f.test ≤ f.valid := by
  rw [largestIdx] at h
  split_ifs at h with h1 h2
  · constructor
    · by_contra hc
      push_neg at hc
      exact h1 ⟨le_of_lt hc, le_trans h2 (le_of_lt hc)⟩
    · exact h2
  · exact absurd h (by decide)

theorem largestIdx_two (f : Fractions) (h : largestIdx f = 2) :
    f.train ≤ f.test ∧ f.valid ≤ f.test := by
  rw [largestIdx] at h
  split_ifs at h with h1 h2
  · exact absurd h (by decide)
  · push_neg at h2
    constructor
    · by_contra hc
      push_neg at hc
      exact h1 ⟨le_of_lt (lt_trans h2 hc), le_of_lt hc⟩
    · exact le_of_lt h2

theorem splitSizes_spec (N : ℕ) (f : Fractions) (hN : 0 < N)
    (habs : |f.train + f.valid + f.test - 1| ≤ fracEps)
    (ht0 : 0 ≤ f.train) (hv0 : 0 ≤ f.valid) (hs0 : 0 ≤ f.test) :
    (splitSizes N f).1 + (splitSizes N f).2.1 + (splitSizes N f).2.2 = N ∧
    ((splitSizes N f).1 : ℤ) = round ((N : ℚ) * f.train)
        + (if largestIdx f = 0 then roundRemainder N f else 0) ∧
    ((splitSizes N f).2.1 : ℤ) = round ((N : ℚ) * f.valid)
        + (if largestIdx f = 1 then roundRemainder N f else 0) ∧
    ((splitSizes N f).2.2 : ℤ) = round ((N : ℚ) * f.test)
        + (if largestIdx f = 2 then roundRemainder N f else 0) := by
  have hsum_le : f.train + f.valid + f.test ≤ 1 + fracEps := by
    have := abs_le.mp habs
    linarith [this.2]
  have hR1 := roundSize_cast N f.train ht0
  have hR2 := roundSize_cast N f.valid hv0
  have hR3 := roundSize_cast N f.test hs0
  rcases largestIdx_cases f with hL | hL | hL
  · obtain ⟨h1, h2⟩ := largestIdx_zero f hL
    have hkey : roundSize N f.valid + roundSize N f.test ≤ N :=
      roundSize_pair_le N hN f.valid f.test f.train hv0 hs0 h1 h2 (by linarith)
    have hsz : splitSizes N f
        = (N - roundSize N f.valid - roundSize N f.test,
           roundSize N f.valid, roundSize N f.test) := by
      rw [splitSizes, if_pos hL]
    simp only [hsz, roundRemainder]
    refine ⟨by omega, ?_, ?_, ?_⟩
    · rw [if_pos hL]
      omega
    · rw [if_neg (by simp [hL])]
      omega
    · rw [if_neg (by simp [hL])]
      omega
  · obtain ⟨h1, h2⟩ := largestIdx_one f hL
    have hkey : roundSize N f.train + roundSize N f.test ≤ N :=
      roundSize_pair_le N hN f.train f.test f.valid ht0 hs0 h1 h2 (by linarith)
    have hsz : splitSizes N f
        = (roundSize N f.train,
           N - roundSize N f.train - roundSize N f.test, roundSize N f.test) := by
      have hne : largestIdx f ≠ 0 := by omega
      rw [splitSizes, if_neg hne, if_pos hL]
    simp only [hsz, roundRemainder]
    refine ⟨by omega, ?_, ?_, ?_⟩
    · rw [if_neg (by simp [hL])]
      omega
    · rw [if_pos hL]
      omega
    · rw [if_neg (by simp [hL])]
      omega
  · obtain ⟨h1, h2⟩ := largestIdx_two f hL
    have hkey : roundSize N f.train + roundSize N f.valid ≤ N :=
      roundSize_pair_le N hN f.train f.valid f.test ht0 hv0 h1 h2 (by linarith)
    have hsz : splitSizes N f
        = (roundSize N f.train, roundSize N f.valid,
           N - roundSize N f.train - roundSize N f.valid) := by
      have hne0 : largestIdx f ≠ 0 := by omega
      have hne1 : largestIdx f ≠ 1 := by omega
      rw [splitSizes, if_neg hne0, if_neg hne1]
    simp only [hsz, roundRemainder]
    refine ⟨by omega, ?_, ?_, ?_⟩
    · rw [if_neg (by simp [hL])]
      omega
    · rw [if_neg (by simp [hL])]
      omega
    · rw [if_pos hL]
      omega

/-- C4 (spec-modelled): a successful Partitioner run produces three
subsets that together are a permutation of the dataset (pairwise disjoint
cover), whose sizes sum to N, each of size `round(N * fraction)` except
that the rounding remainder is assigned to the largest subset. -/
theorem partition_coverage {α : Type} (amb seed : ℕ) (f : Fractions)
    (ds tr va te : List α)
    (h : partitionerRun amb (some seed) f ds = Except.ok (tr, va, te)) :
    (tr ++ va ++ te).Perm ds ∧
    tr.length + va.length + te.length = ds.length ∧
    ((tr.length : ℤ) = round ((ds.length : ℚ) * f.train)
        + (if largestIdx f = 0 then roundRemainder ds.length f else 0)) ∧
    ((va.length : ℤ) = round ((ds.length : ℚ) * f.valid)
        + (if largestIdx f = 1 then roundRemainder ds.length f else 0)) ∧
    ((te.length : ℤ) = round ((ds.length : ℚ) * f.test)
        + (if largestIdx f = 2 then roundRemainder ds.length f else 0)) := by
  simp only [partitionerRun] at h
  split_ifs at h with hnv hz
  case _ =>
    have hval : fracsValid f := hnv
    obtain ⟨habs, ht0, ht1, hv0, hv1, hs0, hs1⟩ := hval
    have hNpos : 0 < ds.length := Nat.pos_of_ne_zero hz
    have hspec := splitSizes_spec ds.length f hNpos habs ht0 hv0 hs0
    injection h with h3
    injection h3 with h4 h5
    injection h5 with h5 h6
    subst h4
    subst h5
    subst h6
    have hslen : (shuffleBySeed (rngKey amb (some seed)) ds).length = ds.length := by
      rw [shuffleBySeed, List.length_rotate]
    have hsumN := hspec.1
    have htr : ((shuffleBySeed (rngKey amb (some seed)) ds).take
        (splitSizes ds.length f).1).length = (splitSizes ds.length f).1 := by
      rw [List.length_take, hslen]
      omega
    have hdroplen : ((shuffleBySeed (rngKey amb (some seed)) ds).drop
        (splitSizes ds.length f).1).length
        = (splitSizes ds.length f).2.1 + (splitSizes ds.length f).2.2 := by
      rw [List.length_drop, hslen]
      omega
    refine ⟨?_, ?_, ?_, ?_, ?_⟩
    · rw [List.append_assoc, List.take_append_drop, List.take_append_drop]
      exact List.rotate_perm ds _
    · rw [htr, List.length_take, hdroplen, List.length_drop, hdroplen]
      omega
    · rw [htr]
      exact hspec.2.1
    · rw [List.length_take, hdroplen]
      rw [Nat.min_eq_left (by omega)]
      exact hspec.2.2.1
    · rw [List.length_drop, hdroplen]
      have : (splitSizes ds.length f).2.1 + (splitSizes ds.length f).2.2
          - (splitSizes ds.length f).2.1 = (splitSizes ds.length f).2.2 := by omega
      rw [this]
      exact hspec.2.2.2

/-- Witness for C4: fractions (0.7, 0.15, 0.15) and the dataset
`range 10` with seed 62: sizes (6, 2, 2) with the −1 rounding remainder on
the largest (train) subset. -/
theorem partition_coverage_witness :
    partitionerRun 0 (some 62) ⟨7/10, 3/20, 3/20⟩ (List.range 10)
      = Except.ok ([2, 3, 4, 5, 6, 7], [8, 9], [0, 1]) ∧
    (([2, 3, 4, 5, 6, 7] ++ [8, 9] ++ [0, 1] : List ℕ)).Perm (List.range 10) ∧
    ([2, 3, 4, 5, 6, 7] : List ℕ).length + ([8, 9] : List ℕ).length
      + ([0, 1] : List ℕ).length = (List.range 10).length := by
  have hval : fracsValid ⟨7/10, 3/20, 3/20⟩ := by
    rw [fracsValid]
    norm_num [fracEps]
  have hr1 : roundSize 10 (7/10 : ℚ) = 7 := by
    have h7 : round (((10 : ℕ) : ℚ) * (7/10)) = 7 := by norm_num
    rw [roundSize, h7]
    rfl
  have hr2 : roundSize 10 (3/20 : ℚ) = 2 := by
    have h2 : round (((10 : ℕ) : ℚ) * (3/20)) = 2 := by norm_num [round_eq]
    rw [roundSize, h2]
    rfl
  have hL : largestIdx ⟨7/10, 3/20, 3/20⟩ = 0 := by
    rw [largestIdx, if_pos]
    constructor <;> norm_num
  have hsz : splitSizes 10 ⟨7/10, 3/20, 3/20⟩ = (6, 2, 2) := by
    rw [splitSizes, if_pos hL]
    simp only [hr2]
  have hok : partitionerRun 0 (some 62) ⟨7/10, 3/20, 3/20⟩ (List.range 10)
      = Except.ok ([2, 3, 4, 5, 6, 7], [8, 9], [0, 1]) := by
    have hlen : (List.range 10).length = 10 := by decide
    simp only [partitionerRun, if_neg (not_not_intro hval), hlen, hsz]
    rw [if_neg (show ¬(10 = 0) by decide)]
    exact congrArg Except.ok (by decide)
  have h := partition_coverage 0 62 ⟨7/10, 3/20, 3/20⟩ (List.range 10)
    [2, 3, 4, 5, 6, 7] [8, 9] [0, 1] hok
  exact ⟨hok, h.1, h.2.1⟩

/-- C7 (spec-modelled): the Partitioner fails with `InvalidFractionError`
whenever the fractions are invalid, fails with `EmptyDatasetError` when
the fractions are valid but the dataset is empty, and otherwise produces a
partition. -/
theorem partition_error_conditions {α : Type} (amb seed : ℕ) (f : Fractions)
    (ds : List α) :
    (¬ fracsValid f →
      partitionerRun amb (some seed) f ds
        = Except.error PartitionError.InvalidFractionError) ∧
    (fracsValid f → ds.length = 0 →
      partitionerRun amb (some seed) f ds
        = Except.error PartitionError.EmptyDatasetError) ∧
    (fracsValid f → ds.length ≠ 0 →
      ∃ tr va te, partitionerRun amb (some seed) f ds = Except.ok (tr, va, te)) := by
  refine ⟨?_, ?_, ?_⟩
  · intro h
    rw [partitionerRun, if_pos h]
  · intro h1 h2
    rw [partitionerRun, if_neg (not_not_intro h1), if_pos h2]
  · intro h1 h2
    refine ⟨(shuffleBySeed (rngKey amb (some seed)) ds).take (splitSizes ds.length f).1,
      ((shuffleBySeed (rngKey amb (some seed)) ds).drop (splitSizes ds.length f).1).take
        (splitSizes ds.length f).2.1,
      ((shuffleBySeed (rngKey amb (some seed)) ds).drop (splitSizes ds.length f).1).drop
        (splitSizes ds.length f).2.1, ?_⟩
    rw [partitionerRun, if_neg (not_not_intro h1), if_neg h2]

/-- Witness for C7: invalid fractions (sum 2) raise
`InvalidFractionError`; valid fractions on the empty dataset raise
`EmptyDatasetError`; valid fractions on `[5]` produce a partition. -/
theorem partition_error_conditions_witness :
    ¬ fracsValid ⟨2, 0, 0⟩ ∧
    partitionerRun 0 (some 62) ⟨2, 0, 0⟩ ([0] : List ℕ)
      = Except.error PartitionError.InvalidFractionError ∧
    fracsValid ⟨1, 0, 0⟩ ∧
    partitionerRun 0 (some 62) ⟨1, 0, 0⟩ ([] : List ℕ)
      = Except.error PartitionError.EmptyDatasetError ∧
    (partitionerRun 0 (some 62) ⟨1, 0, 0⟩ ([5] : List ℕ)).isOk = true := by
  have hbad : ¬ fracsValid ⟨2, 0, 0⟩ := by
    rw [fracsValid]
    norm_num [fracEps]
  have hgood : fracsValid ⟨1, 0, 0⟩ := by
    rw [fracsValid]
    norm_num [fracEps]
  have ha := partition_error_conditions 0 62 ⟨2, 0, 0⟩ ([0] : List ℕ)
  have hb := partition_error_conditions 0 62 ⟨1, 0, 0⟩ ([] : List ℕ)
  have hc := partition_error_conditions 0 62 ⟨1, 0, 0⟩ ([5] : List ℕ)
  obtain ⟨tr, va, te, hok⟩ := hc.2.2 hgood (by decide)
  refine ⟨hbad, ha.1 hbad, hgood, hb.2.1 hgood rfl, ?_⟩
  rw [hok]
  rfl

/-- C8 (spec-modelled): the partition is a deterministic function of the
seed, the fractions and the dataset: with an explicit seed the ambient
random-generator state is never consulted, so two invocations under
different ambient states — in particular two invocations at different
times with the same seed and dataset — return the same partition. -/
theorem partition_determinism {α : Type} (amb1 amb2 seed : ℕ) (f : Fractions)
    (ds : List α) :
    partitionerRun amb1 (some seed) f ds = partitionerRun amb2 (some seed) f ds := rfl

end IrisSVM
